import Mathlib

/-!
Verification development for the release orchestration core of scripts/release.py.

The embedding models:
- the external-tool invocation wrapper run_cmd with its exit-code handling,
- the per-target worker and its parameter construction,
- the download pre-pass and the job-matrix dispatch loop as an invocation trace,
- the per-group log aggregation (sort before emission),
- the language-catalog loader load_lang over JSON-object rows,
- the command-line dictionary-type filter.

Positional parameters are modelled as token lists: the source carries them as a
space-joined string and re-splits them at every use site with split(" "); the
tokens are iso codes and never contain spaces, so the two views coincide.
External process execution is modelled by an oracle mapping each invocation
(command name and parameters) to the tool result (exit code, stdout lines,
stderr); the Python CalledProcessError raised by check=True becomes the error
branch of an Except value carrying the command and the captured output.
-/

def BINARY_PATH : String := "target/release/kty"

/-- Substring test on character lists, used to model the Python `in` operator
on strings for the log-line filters. -/
def hasSubstr (pat : List Char) : List Char → Bool
  | [] => pat.isEmpty
  | c :: rest => pat.isPrefixOf (c :: rest) || hasSubstr pat rest

def strContains (s pat : String) : Bool := hasSubstr pat.data s.data

/-- Character class 0x30 to 0x3F of the ANSI escape pattern. -/
def ansiParam (c : Char) : Bool := decide ('0' ≤ c ∧ c ≤ '?')

/-- Character class 0x20 to 0x2F of the ANSI escape pattern. -/
def ansiInterm (c : Char) : Bool := decide (' ' ≤ c ∧ c ≤ '/')

/-- Character class 0x40 to 0x5F of the ANSI escape pattern. -/
def ansiOpen (c : Char) : Bool := decide ('@' ≤ c ∧ c ≤ '_')

/-- Character class 0x40 to 0x7E of the ANSI escape pattern. -/
def ansiFinal (c : Char) : Bool := decide ('@' ≤ c ∧ c ≤ '~')

/-- Match the ANSI escape regular expression (ESC, one opener 0x40 to 0x5F,
any number of 0x30 to 0x3F, any number of 0x20 to 0x2F, one final 0x40 to
0x7E) at the head of the list, returning the remainder after the match.  The
three character classes are pairwise disjoint, so the greedy reading is the
unique one and no backtracking is needed. -/
def ansiMatch : List Char → Option (List Char)
  | e :: c :: rest =>
    if e = '\x1B' ∧ ansiOpen c = true then
      match (rest.dropWhile ansiParam).dropWhile ansiInterm with
      | f :: rest3 => if ansiFinal f = true then some rest3 else none
      | [] => none
    else none
  | _ => none

/-- Remove every non-overlapping ANSI escape match, scanning left to right, as
re.sub with an empty replacement does. -/
def cleanChars : List Char → List Char
  | [] => []
  | c :: rest =>
    match h : ansiMatch (c :: rest) with
    | some rem => cleanChars rem
    | none => c :: cleanChars rest
termination_by l => l.length
decreasing_by
  · cases rest with
    | nil => simp [ansiMatch] at h
    | cons c2 rest2 =>
      simp only [ansiMatch] at h
      split at h
      · split at h
        · rename_i f rest3 heq
          split at h
          · cases h
            have h1 : ((rest2.dropWhile ansiParam).dropWhile ansiInterm).length ≤ rest2.length :=
              le_trans (List.dropWhile_sublist _).length_le (List.dropWhile_sublist _).length_le
            rw [heq] at h1
            simp only [List.length_cons] at h1 ⊢
            omega
          · cases h
        · cases h
      · cases h
  · simp

/-- clean from release.py: strip ANSI escape sequences from a line. -/
def clean (s : String) : String := ⟨cleanChars s.data⟩

/-- Dictionary types of release.py (the DictTy literal). -/
inductive DictTy where
  | main
  | ipa
  | ipaMerged
  | glossary
deriving DecidableEq, Repr

/-- String value of each dictionary-type literal as it appears in the source. -/
def DictTy.name : DictTy → String
  | .main => "main"
  | .ipa => "ipa"
  | .ipaMerged => "ipa-merged"
  | .glossary => "glossary"

/-- Command-line arguments record of release.py (dtype holds the raw string
accepted by the argument parser, compared against the matrix row literals). -/
structure Args where
  verbose : Nat
  dry_run : Bool
  jobs : Nat
  dtype : Option String
deriving DecidableEq, Repr

/-- Language record of release.py. -/
structure Lang where
  iso : String
  language : String
  display_name : String
  flag : String
  has_edition : Bool
deriving DecidableEq, Repr

/-- Outcome of one external-tool process: exit code plus captured output. -/
structure ToolResult where
  exitCode : Int
  stdoutLines : List String
  stderr : String
deriving DecidableEq, Repr

/-- One external-tool invocation: command name and positional parameters. -/
structure Invocation where
  cmdName : String
  params : List String
deriving DecidableEq, Repr

/-- Failure value modelling the re-raised CalledProcessError: it carries the
failed command line and its captured stdout and stderr, which run_cmd logs
before re-raising. -/
structure CmdFailure where
  cmd : List String
  res : ToolResult
deriving DecidableEq, Repr

/-- External world: maps every invocation to the tool result it produces. -/
def Oracle : Type := String → List String → ToolResult

/-- Command-line construction of run_cmd: binary, command name, positional
parameters, then the root-dir flag. -/
def buildCmd (rootDir : String) (cmdName : String) (params : List String) : List String :=
  [BINARY_PATH, cmdName] ++ params ++ ["--root-dir=" ++ rootDir]

/-- Line filter of the verbose=1 branch of run_cmd: keep lines announcing a
written dictionary and, when requested, download-status lines.  A line
matching both tests is appended twice, as in the source. -/
def keptLines (printDownloadStatus : Bool) (lines : List String) : List String :=
  lines.flatMap fun line =>
    let cl := clean line
    (if strContains cl "Wrote yomitan dict" then [cl] else []) ++
    (if printDownloadStatus && strContains cl "ownload" then [cl] else [])

/-- run_cmd from release.py.  Dry runs return exit 0 with the printed command
line.  A nonzero exit raises CalledProcessError (check=True); the handler
absorbs it as success with empty logs only when the command is ipa or main
and the second positional parameter is the English iso, and otherwise logs
the failed command with its captured stdout and stderr and re-raises, which
aborts the run.  On exit 0 the captured stdout is filtered per verbosity. -/
def runCmd (rootDir : String) (cmdName : String) (params : List String) (args : Args)
    (printDownloadStatus : Bool) (res : ToolResult) : Except CmdFailure (Int × List String) :=
  let cmd := buildCmd rootDir cmdName params
  if args.dry_run then
    .ok (0, [clean (String.intercalate " " cmd)])
  else if res.exitCode ≠ 0 then
    if (cmdName = "ipa" ∨ cmdName = "main") ∧ params[1]? = some "en" then
      .ok (0, [])
    else
      .error ⟨cmd, res⟩
  else
    let logs :=
      match args.verbose with
      | 1 => keptLines printDownloadStatus res.stdoutLines
      | 2 => res.stdoutLines.map clean
      | _ => []
    .ok (res.exitCode, logs)

/-- Parameter construction of the per-target worker in run_matrix: main and
ipa pass target then source, glossary passes source then target and is
skipped entirely when source equals target, ipa-merged passes the source
alone.  none means the worker returns without invoking the tool. -/
def workerInvocation (dictTy : DictTy) (source target : String) : Option Invocation :=
  match dictTy with
  | .main => some ⟨DictTy.main.name, [target, source]⟩
  | .ipa => some ⟨DictTy.ipa.name, [target, source]⟩
  | .glossary => if source = target then none else some ⟨DictTy.glossary.name, [source, target]⟩
  | .ipaMerged => some ⟨DictTy.ipaMerged.name, [source]⟩

/-- The worker closure of run_matrix: build the parameters for the target,
skip glossary self-pairs with success and empty logs, otherwise invoke the
tool through run_cmd. -/
def worker (odir : String) (dictTy : DictTy) (source : String) (args : Args) (ora : Oracle)
    (target : String) : Except CmdFailure (Int × List String) :=
  match workerInvocation dictTy source target with
  | none => .ok (0, [])
  | some inv => runCmd odir inv.cmdName inv.params args false (ora inv.cmdName inv.params)

/-- All iso codes of the catalog, in catalog order. -/
def isosOf (langs : List Lang) : List String := langs.map Lang.iso

/-- Iso codes of the languages flagged with an edition, in catalog order. -/
def withEditionOf (langs : List Lang) : List String :=
  (langs.filter Lang.has_edition).map Lang.iso

/-- Iso codes without the simple sentinel. -/
def isosNoSimple (langs : List Lang) : List String :=
  (isosOf langs).filter (fun iso => iso ≠ "simple")

/-- Edition iso codes without the simple sentinel. -/
def withEditionNoSimple (langs : List Lang) : List String :=
  (withEditionOf langs).filter (fun iso => iso ≠ "simple")

/-- One row of the job matrix: a dictionary type, its source list, and the
target-list function applied to each source. -/
structure MatrixRow where
  dictTy : DictTy
  sources : List String
  targetsFor : String → List String

/-- The matrix literal of run_matrix, in source order. -/
def matrixFor (langs : List Lang) : List MatrixRow :=
  [ ⟨.main, withEditionOf langs,
      fun ed => if ed ≠ "simple" then isosNoSimple langs else ["simple"]⟩,
    ⟨.ipa, withEditionNoSimple langs, fun _ => isosNoSimple langs⟩,
    ⟨.glossary, withEditionNoSimple langs, fun _ => isosNoSimple langs⟩,
    ⟨.ipaMerged, withEditionNoSimple langs, fun _ => ["__target"]⟩ ]

/-- Dictionary-type filter applied to the matrix when the dtype option is
set: keep the rows whose type literal equals the option value. -/
def selectMatrix (rows : List MatrixRow) (dtype : Option String) : List MatrixRow :=
  match dtype with
  | none => rows
  | some d => rows.filter (fun row => row.dictTy.name = d)

/-- The download pre-pass of run_download: for each edition source in order,
invoke the download operation with the source in both positional slots.  A
failure re-raised by runCmd stops the pass immediately and propagates; the
trace records the invocations actually dispatched, in dispatch order. -/
def runDownloadList (odir : String) (args : Args) (ora : Oracle) :
    List String → List Invocation × Option CmdFailure
  | [] => ([], none)
  | source :: rest =>
    let inv : Invocation := ⟨"download", [source, source]⟩
    match runCmd odir "download" [source, source] args true (ora "download" [source, source]) with
    | .error f => ([inv], some f)
    | .ok _ =>
      (inv :: (runDownloadList odir args ora rest).1, (runDownloadList odir args ora rest).2)

/-- Dispatch of one (dictionary type, source) group over its targets,
recording each invocation the worker actually performs; glossary self-pairs
produce no invocation.  A re-raised failure stops the group and propagates.
In the source the targets of a group run on a bounded worker pool; the trace
lists them in submission order, which is how executor.map yields them. -/
def runGroup (odir : String) (dictTy : DictTy) (source : String) (args : Args) (ora : Oracle) :
    List String → List Invocation × Option CmdFailure
  | [] => ([], none)
  | target :: rest =>
    match workerInvocation dictTy source target with
    | none => runGroup odir dictTy source args ora rest
    | some inv =>
      match runCmd odir inv.cmdName inv.params args false (ora inv.cmdName inv.params) with
      | .error f => ([inv], some f)
      | .ok _ =>
        (inv :: (runGroup odir dictTy source args ora rest).1,
          (runGroup odir dictTy source args ora rest).2)

/-- Sequential pass of one matrix row over its sources. -/
def runSources (odir : String) (dictTy : DictTy) (args : Args) (ora : Oracle)
    (targetsFor : String → List String) : List String → List Invocation × Option CmdFailure
  | [] => ([], none)
  | source :: rest =>
    let g := runGroup odir dictTy source args ora (targetsFor source)
    match g.2 with
    | some f => (g.1, some f)
    | none =>
      (g.1 ++ (runSources odir dictTy args ora targetsFor rest).1,
        (runSources odir dictTy args ora targetsFor rest).2)

/-- Sequential pass over the matrix rows, one dictionary type at a time. -/
def runRows (odir : String) (args : Args) (ora : Oracle) :
    List MatrixRow → List Invocation × Option CmdFailure
  | [] => ([], none)
  | row :: rest =>
    let g := runSources odir row.dictTy args ora row.targetsFor row.sources
    match g.2 with
    | some f => (g.1, some f)
    | none =>
      (g.1 ++ (runRows odir args ora rest).1, (runRows odir args ora rest).2)

/-- Invocation trace of run_matrix: the download pre-pass over the edition
sources runs first and in full; only then is the (possibly dtype-filtered)
matrix dispatched row by row, source by source.  The second component is the
failure that aborted the run, when one did. -/
def runMatrixTrace (odir : String) (langs : List Lang) (args : Args) (ora : Oracle) :
    List Invocation × Option CmdFailure :=
  let d := runDownloadList odir args ora (withEditionOf langs)
  match d.2 with
  | some f => (d.1, some f)
  | none =>
    (d.1 ++ (runRows odir args ora (selectMatrix (matrixFor langs) args.dtype)).1,
      (runRows odir args ora (selectMatrix (matrixFor langs) args.dtype)).2)

/-- Per-group log aggregation of run_matrix: the retained lines of all
workers of a (dictionary type, source) group are concatenated and sorted
before being emitted to the persisted log. -/
def aggregateGroup (logsPerWorker : List (List String)) : List String :=
  logsPerWorker.flatten.mergeSort (fun a b => a ≤ b)

/-- JSON scalar values as far as the catalog loader inspects them. -/
inductive JValue where
  | str (s : String)
  | bool (b : Bool)
  | num (n : Int)
  | null
deriving DecidableEq, Repr

/-- A JSON object row of languages.json, as an association list. -/
def JItem : Type := List (String × JValue)

/-- Key lookup, first binding wins, as in a parsed JSON object. -/
def jget (item : JItem) (key : String) : Option JValue :=
  (item.find? (fun kv => kv.1 = key)).map (fun kv => kv.2)

/-- A loaded language row.  The loader copies the values through without any
type validation, so the fields stay untyped JSON values. -/
structure RawLang where
  iso : JValue
  language : JValue
  display_name : JValue
  flag : JValue
  has_edition : JValue
deriving DecidableEq, Repr

/-- load_lang from release.py: subscript access on the four required keys
raises KeyError when one is absent; hasEdition defaults to False. -/
def load_lang (item : JItem) : Except String RawLang := do
  let iso ← match jget item "iso" with
    | some v => .ok v
    | none => .error "KeyError: iso"
  let language ← match jget item "language" with
    | some v => .ok v
    | none => .error "KeyError: language"
  let display_name ← match jget item "displayName" with
    | some v => .ok v
    | none => .error "KeyError: displayName"
  let flag ← match jget item "flag" with
    | some v => .ok v
    | none => .error "KeyError: flag"
  let has_edition := (jget item "hasEdition").getD (JValue.bool false)
  .ok ⟨iso, language, display_name, flag, has_edition⟩

/-- Statement-side description of the value a row with the four required
keys loads to: each field is the row's own value, and hasEdition falls back
to false when the key is absent.  Compared against load_lang in the loader
theorems to pin the loaded values and their order exactly. -/
def loadedRow (item : JItem) : RawLang :=
  ⟨(jget item "iso").getD JValue.null,
    (jget item "language").getD JValue.null,
    (jget item "displayName").getD JValue.null,
    (jget item "flag").getD JValue.null,
    (jget item "hasEdition").getD (JValue.bool false)⟩

/-- The list comprehension of build_release over the parsed rows: sequential,
the first raising row aborts the load. -/
def load_langs : List JItem → Except String (List RawLang)
  | [] => .ok []
  | item :: rest => do
    let l ← load_lang item
    let ls ← load_langs rest
    .ok (l :: ls)

/-- State of the catalog source file as build_release opens and parses it. -/
inductive CatalogSource where
  | missing
  | malformedJson
  | parsed (rows : List JItem)

/-- Catalog loading of build_release: opening a missing file or parsing
malformed JSON raises before any row is read; otherwise every row goes
through load_lang. -/
def load_catalog : CatalogSource → Except String (List RawLang)
  | .missing => .error "FileNotFoundError: assets/languages.json"
  | .malformedJson => .error "JSONDecodeError"
  | .parsed rows => load_langs rows

/-- The choices list of the dictionary-type option of parse_args. -/
def dictionaryTypeChoices : List String := ["main", "ipa", "ipa-merged"]

/-- Argparse acceptance of the dictionary-type option value: a value outside
the choices list is rejected with a usage error. -/
def parseDictionaryType (s : String) : Option String :=
  if s ∈ dictionaryTypeChoices then some s else none

/-- C1 counterexample: a dispatched glossary job whose invocation exits with
code 1 is not recorded as success; runCmd logs the failed command with its
captured output and re-raises, aborting the run.  This contradicts the claim
that exit codes 1 and 2 are absorbed as benign for every job. -/
theorem C1_counterexample :
    runCmd "data/release" "glossary" ["el", "ja"] ⟨0, false, 8, none⟩ false ⟨1, [], ""⟩ =
      .error ⟨["target/release/kty", "glossary", "el", "ja", "--root-dir=data/release"],
        ⟨1, [], ""⟩⟩ := by
  rfl

/-- C1 (amended): runCmd re-raises, aborting the run, exactly when the run is
not a dry run, the exit code is nonzero, and the benign special case (command
ipa or main with second positional parameter en) does not apply.  In
particular exit codes 1 and 2 are absorbed only under that special case, and
the failure carries the command line and the captured output. -/
theorem C1_exit_code_policy (rootDir cmdName : String) (params : List String) (args : Args)
    (pds : Bool) (res : ToolResult) :
    runCmd rootDir cmdName params args pds res =
        .error ⟨buildCmd rootDir cmdName params, res⟩ ↔
      (args.dry_run = false ∧ res.exitCode ≠ 0 ∧
        ¬((cmdName = "ipa" ∨ cmdName = "main") ∧ params[1]? = some "en")) := by
  simp only [runCmd]
  split_ifs with h1 h2 h3
  · simp [h1]
  · simp [h1, h2, h3]
  · simp [h1, h2, h3]
  · simp [h1, h2]

/-- C2: exit-code classification is a pure function of the command name, the
positional parameters, and the exit code.  In an actual (non dry) run with a
nonzero exit code, an ipa or main job whose second positional parameter is
the English iso returns success with an empty log list, while a glossary job
re-raises with the captured stdout and stderr in the failure, aborting the
run. -/
theorem C2_classification (rootDir : String) (params : List String) (args : Args)
    (pds : Bool) (res : ToolResult) (hdry : args.dry_run = false)
    (hnz : res.exitCode ≠ 0) :
    (∀ cmdName, (cmdName = "ipa" ∨ cmdName = "main") → params[1]? = some "en" →
      runCmd rootDir cmdName params args pds res = .ok (0, [])) ∧
    runCmd rootDir "glossary" params args pds res =
      .error ⟨buildCmd rootDir "glossary" params, res⟩ := by
  constructor
  · intro cmdName hcn hen
    simp [runCmd, hdry, hnz, hcn, hen]
  · have hno : ¬((("glossary" : String) = "ipa" ∨ ("glossary" : String) = "main") ∧
        params[1]? = some "en") := by
      rintro ⟨h | h, _⟩ <;> simp at h
    simp [runCmd, hdry, hnz, hno]

/-- C2 witness: with exit code 7 a main job sourced from en is benign while a
glossary job with the same parameters aborts with its captured output. -/
theorem C2_classification_witness :
    runCmd "data/release" "main" ["ja", "en"] ⟨0, false, 8, none⟩ false ⟨7, ["boom"], "bad"⟩ =
        .ok (0, []) ∧
      runCmd "data/release" "glossary" ["ja", "en"] ⟨0, false, 8, none⟩ false
          ⟨7, ["boom"], "bad"⟩ =
        .error ⟨["target/release/kty", "glossary", "ja", "en", "--root-dir=data/release"],
          ⟨7, ["boom"], "bad"⟩⟩ := by
  have h := C2_classification "data/release" ["ja", "en"] ⟨0, false, 8, none⟩ false
    ⟨7, ["boom"], "bad"⟩ rfl (by decide)
  exact ⟨h.1 "main" (Or.inr rfl) rfl, by rw [h.2]; rfl⟩

/-- C3 counterexample: with two edition sources and every download exiting
with code 1, the pre-pass dispatches only the first download and propagates
the failure; the second source is never invoked.  This contradicts the claim
that a failed download is absorbed and the pre-pass continues best-effort. -/
theorem C3_counterexample :
    runDownloadList "data/release" ⟨0, false, 8, none⟩ (fun _ _ => ⟨1, [], ""⟩) ["aa", "bb"] =
      ([⟨"download", ["aa", "aa"]⟩],
        some ⟨["target/release/kty", "download", "aa", "aa", "--root-dir=data/release"],
          ⟨1, [], ""⟩⟩) := by
  rfl

/-- C3 (amended): in an actual run, a nonzero exit of the download invocation
for the first pending source aborts the whole run at once: the failure
propagates out of run_matrix, the remaining sources are never downloaded, and
no build job is dispatched. -/
theorem C3_download_failure_aborts (odir : String) (langs : List Lang) (args : Args)
    (ora : Oracle) (s : String) (rest : List String)
    (hwe : withEditionOf langs = s :: rest)
    (hdry : args.dry_run = false)
    (hfail : (ora "download" [s, s]).exitCode ≠ 0) :
    runMatrixTrace odir langs args ora =
      ([⟨"download", [s, s]⟩],
        some ⟨buildCmd odir "download" [s, s], ora "download" [s, s]⟩) := by
  have hno : ¬((("download" : String) = "ipa" ∨ ("download" : String) = "main") ∧
      ([s, s] : List String)[1]? = some "en") := by
    rintro ⟨h | h, _⟩ <;> simp at h
  have hcmd : runCmd odir "download" [s, s] args true (ora "download" [s, s]) =
      .error ⟨buildCmd odir "download" [s, s], ora "download" [s, s]⟩ := by
    simp [runCmd, hdry, hfail, hno]
  simp only [runMatrixTrace, hwe, runDownloadList, hcmd]

/-- C3 witness for the amended theorem: a concrete two-language catalog whose
first download fails aborts the run with an empty build trace. -/
theorem C3_download_failure_aborts_witness :
    runMatrixTrace "data/release" [⟨"aa", "Aa", "Aa", "a", true⟩, ⟨"bb", "Bb", "Bb", "b", true⟩]
        ⟨0, false, 8, none⟩ (fun _ _ => ⟨1, [], ""⟩) =
      ([⟨"download", ["aa", "aa"]⟩],
        some ⟨["target/release/kty", "download", "aa", "aa", "--root-dir=data/release"],
          ⟨1, [], ""⟩⟩) := by
  have h := C3_download_failure_aborts "data/release"
    [⟨"aa", "Aa", "Aa", "a", true⟩, ⟨"bb", "Bb", "Bb", "b", true⟩]
    ⟨0, false, 8, none⟩ (fun _ _ => ⟨1, [], ""⟩) "aa" ["bb"] rfl rfl (by decide)
  rw [h]; rfl

/-- C5: a glossary job whose source equals its target is never dispatched:
no invocation is constructed, the worker returns success with an empty log
list independently of the external world, and no invocation with those
parameters ever appears in the dispatch trace of a glossary group. -/
theorem C5_glossary_self_pair_skipped (odir : String) (args : Args) (ora : Oracle)
    (source : String) :
    workerInvocation .glossary source source = none ∧
    worker odir .glossary source args ora source = .ok (0, []) ∧
    ∀ targets : List String,
      (⟨"glossary", [source, source]⟩ : Invocation) ∉
        (runGroup odir .glossary source args ora targets).1 := by
  refine ⟨by simp [workerInvocation], by simp [worker, workerInvocation], ?_⟩
  intro targets
  induction targets with
  | nil => simp [runGroup]
  | cons t rest ih =>
    simp only [runGroup]
    by_cases hst : source = t
    · simp only [workerInvocation, if_pos hst]
      exact ih
    · simp only [workerInvocation, if_neg hst]
      have hne : (⟨"glossary", [source, source]⟩ : Invocation) ≠
          ⟨DictTy.glossary.name, [source, t]⟩ := by
        intro h
        exact hst (by injection (congrArg Invocation.params h) with _ h2; injection h2)
      cases hrc : runCmd odir DictTy.glossary.name [source, t] args false
          (ora DictTy.glossary.name [source, t]) with
      | error f =>
        intro hmem
        rcases List.mem_singleton.mp hmem with h
        exact hne h
      | ok v =>
        intro hmem
        rcases List.mem_cons.mp hmem with h | h
        · exact hne h
        · exact ih h

/-- C8: each job maps deterministically to one invocation whose positional
parameters are derived from its dictionary type: main and ipa pass target
then source, glossary passes source then target, ipa-merged passes the
source alone, and the command line appends the root-dir flag last. -/
theorem C8_invocation_parameters (rootDir source target : String) (hst : source ≠ target) :
    (workerInvocation .main source target).map
        (fun inv => buildCmd rootDir inv.cmdName inv.params) =
      some [BINARY_PATH, "main", target, source, "--root-dir=" ++ rootDir] ∧
    (workerInvocation .ipa source target).map
        (fun inv => buildCmd rootDir inv.cmdName inv.params) =
      some [BINARY_PATH, "ipa", target, source, "--root-dir=" ++ rootDir] ∧
    (workerInvocation .glossary source target).map
        (fun inv => buildCmd rootDir inv.cmdName inv.params) =
      some [BINARY_PATH, "glossary", source, target, "--root-dir=" ++ rootDir] ∧
    (workerInvocation .ipaMerged source target).map
        (fun inv => buildCmd rootDir inv.cmdName inv.params) =
      some [BINARY_PATH, "ipa-merged", source, "--root-dir=" ++ rootDir] := by
  refine ⟨rfl, rfl, ?_, rfl⟩
  simp [workerInvocation, buildCmd, hst, DictTy.name]

/-- C8 witness at a concrete source and target pair. -/
theorem C8_invocation_parameters_witness :
    (workerInvocation .main "el" "ja").map
        (fun inv => buildCmd "data/release" inv.cmdName inv.params) =
      some [BINARY_PATH, "main", "ja", "el", "--root-dir=" ++ "data/release"] ∧
    (workerInvocation .ipa "el" "ja").map
        (fun inv => buildCmd "data/release" inv.cmdName inv.params) =
      some [BINARY_PATH, "ipa", "ja", "el", "--root-dir=" ++ "data/release"] ∧
    (workerInvocation .glossary "el" "ja").map
        (fun inv => buildCmd "data/release" inv.cmdName inv.params) =
      some [BINARY_PATH, "glossary", "el", "ja", "--root-dir=" ++ "data/release"] ∧
    (workerInvocation .ipaMerged "el" "ja").map
        (fun inv => buildCmd "data/release" inv.cmdName inv.params) =
      some [BINARY_PATH, "ipa-merged", "el", "--root-dir=" ++ "data/release"] :=
  C8_invocation_parameters "data/release" "el" "ja" (by decide)

/-- C6: the per-group aggregation emits the retained lines in sorted order;
two runs whose workers produce the same multiset of retained lines emit
identical group output regardless of how the lines were distributed and
ordered, and re-aggregating already aggregated output changes nothing. -/
theorem C6_sorted_aggregation (L1 L2 : List (List String))
    (hperm : List.Perm L1.flatten L2.flatten) :
    aggregateGroup L1 = aggregateGroup L2 ∧
    List.Sorted (· ≤ ·) (aggregateGroup L1) ∧
    aggregateGroup [aggregateGroup L1] = aggregateGroup L1 := by
  have hs1 : List.Sorted (· ≤ ·) (aggregateGroup L1) := List.sorted_mergeSort' _
  have hs2 : List.Sorted (· ≤ ·) (aggregateGroup L2) := List.sorted_mergeSort' _
  have hp : List.Perm (aggregateGroup L1) (aggregateGroup L2) :=
    ((List.mergeSort_perm L1.flatten _).trans hperm).trans
      (List.mergeSort_perm L2.flatten _).symm
  refine ⟨List.eq_of_perm_of_sorted hp hs1 hs2, hs1, ?_⟩
  show List.mergeSort ([aggregateGroup L1].flatten) (fun a b => a ≤ b) = aggregateGroup L1
  rw [show [aggregateGroup L1].flatten = aggregateGroup L1 by simp]
  exact List.mergeSort_eq_self hs1

/-- C6 witness: two distributions of the same three log lines across workers
aggregate to the same sorted output, and aggregation is idempotent on it. -/
theorem C6_sorted_aggregation_witness :
    aggregateGroup [["b"], ["a", "c"]] = aggregateGroup [["c", "a", "b"]] ∧
    List.Sorted (· ≤ ·) (aggregateGroup [["b"], ["a", "c"]]) ∧
    aggregateGroup [aggregateGroup [["b"], ["a", "c"]]] = aggregateGroup [["b"], ["a", "c"]] :=
  C6_sorted_aggregation [["b"], ["a", "c"]] [["c", "a", "b"]] (by decide)

/-- C7 counterexample: in a catalog containing the sentinel language simple,
the main row maps the non-simple source en to the target list without
simple, so the targets are not all catalog languages as claimed. -/
theorem C7_counterexample :
    "simple" ∈ isosOf [(⟨"en", "English", "English", "e", true⟩ : Lang),
      ⟨"simple", "Simple English", "Simple", "s", true⟩] ∧
    ((matrixFor [(⟨"en", "English", "English", "e", true⟩ : Lang),
        ⟨"simple", "Simple English", "Simple", "s", true⟩]).head?.map
      (fun row => (row.dictTy, row.targetsFor "en"))) = some (DictTy.main, ["en"]) := by
  exact ⟨by decide, rfl⟩

/-- C7 (amended): the main row of the matrix has exactly the edition
languages as sources; the sentinel source simple maps to the single target
simple, and every other source maps to all catalog languages except
simple. -/
theorem C7_main_axis (langs : List Lang) :
    ∃ row ∈ matrixFor langs,
      row.dictTy = DictTy.main ∧
      row.sources = withEditionOf langs ∧
      row.targetsFor "simple" = ["simple"] ∧
      ∀ ed t, ed ≠ "simple" →
        (t ∈ row.targetsFor ed ↔ (t ∈ isosOf langs ∧ t ≠ "simple")) := by
  refine ⟨⟨DictTy.main, withEditionOf langs,
    fun ed => if ed ≠ "simple" then isosNoSimple langs else ["simple"]⟩,
    List.mem_cons_self _ _, rfl, rfl, by simp, ?_⟩
  intro ed t hed
  simp only [if_pos hed, isosNoSimple, List.mem_filter]
  simp

/-- C7 witness: the amended main-axis description at a concrete catalog. -/
theorem C7_main_axis_witness :
    ∃ row ∈ matrixFor [(⟨"en", "English", "English", "e", true⟩ : Lang),
        ⟨"simple", "Simple English", "Simple", "s", true⟩,
        ⟨"ja", "Japanese", "Japanese", "j", false⟩],
      row.dictTy = DictTy.main ∧
      row.sources = withEditionOf [(⟨"en", "English", "English", "e", true⟩ : Lang),
        ⟨"simple", "Simple English", "Simple", "s", true⟩,
        ⟨"ja", "Japanese", "Japanese", "j", false⟩] ∧
      row.targetsFor "simple" = ["simple"] ∧
      ∀ ed t, ed ≠ "simple" →
        (t ∈ row.targetsFor ed ↔
          (t ∈ isosOf [(⟨"en", "English", "English", "e", true⟩ : Lang),
            ⟨"simple", "Simple English", "Simple", "s", true⟩,
            ⟨"ja", "Japanese", "Japanese", "j", false⟩] ∧ t ≠ "simple")) :=
  C7_main_axis _

/-- Helper: a missing iso key raises first. -/
theorem load_lang_err_iso (item : JItem) (h : jget item "iso" = none) :
    load_lang item = .error "KeyError: iso" := by
  simp only [load_lang, h]
  rfl

/-- Helper: with iso present, a missing language key raises. -/
theorem load_lang_err_language (item : JItem) (v : JValue) (h1 : jget item "iso" = some v)
    (h : jget item "language" = none) :
    load_lang item = .error "KeyError: language" := by
  simp only [load_lang, h1, h]
  rfl

/-- Helper: with iso and language present, a missing displayName key raises. -/
theorem load_lang_err_displayName (item : JItem) (v1 v2 : JValue)
    (h1 : jget item "iso" = some v1) (h2 : jget item "language" = some v2)
    (h : jget item "displayName" = none) :
    load_lang item = .error "KeyError: displayName" := by
  simp only [load_lang, h1, h2, h]
  rfl

/-- Helper: with iso, language and displayName present, a missing flag key
raises. -/
theorem load_lang_err_flag (item : JItem) (v1 v2 v3 : JValue)
    (h1 : jget item "iso" = some v1) (h2 : jget item "language" = some v2)
    (h3 : jget item "displayName" = some v3) (h : jget item "flag" = none) :
    load_lang item = .error "KeyError: flag" := by
  simp only [load_lang, h1, h2, h3, h]
  rfl

/-- Helper: a row holding the four required keys loads to exactly its own
values, with the hasEdition default. -/
theorem load_lang_eq (item : JItem)
    (h : ∀ k ∈ (["iso", "language", "displayName", "flag"] : List String),
      (jget item k).isSome) :
    load_lang item = .ok (loadedRow item) := by
  obtain ⟨v1, hv1⟩ := Option.isSome_iff_exists.mp (h "iso" (by simp))
  obtain ⟨v2, hv2⟩ := Option.isSome_iff_exists.mp (h "language" (by simp))
  obtain ⟨v3, hv3⟩ := Option.isSome_iff_exists.mp (h "displayName" (by simp))
  obtain ⟨v4, hv4⟩ := Option.isSome_iff_exists.mp (h "flag" (by simp))
  simp only [load_lang, loadedRow, hv1, hv2, hv3, hv4, Option.getD_some]
  rfl

/-- Helper: a list of rows all holding the required keys loads to exactly
the rows of loaded values, in row order. -/
theorem load_langs_eq (rows : List JItem)
    (hkeys : ∀ item ∈ rows, ∀ k ∈ (["iso", "language", "displayName", "flag"] : List String),
      (jget item k).isSome) :
    load_langs rows = .ok (rows.map loadedRow) := by
  induction rows with
  | nil => rfl
  | cons item rest ih =>
    have hi := load_lang_eq item (hkeys item (by simp))
    have hr := ih (fun i hi2 k hk => hkeys i (by simp [hi2]) k hk)
    simp only [load_langs, hi, hr, List.map_cons]
    rfl

/-- C9 counterexample: two identical rows with the same iso code load
successfully, so duplicate iso codes are not a fatal load error as the claim
states. -/
theorem C9_counterexample :
    load_catalog (CatalogSource.parsed
      [([("iso", JValue.str "en"), ("language", JValue.str "English"),
          ("displayName", JValue.str "english"), ("flag", JValue.str "gb"),
          ("hasEdition", JValue.bool true)] : JItem),
        ([("iso", JValue.str "en"), ("language", JValue.str "English"),
          ("displayName", JValue.str "english"), ("flag", JValue.str "gb"),
          ("hasEdition", JValue.bool true)] : JItem)]) =
      .ok [⟨JValue.str "en", JValue.str "English", JValue.str "english",
            JValue.str "gb", JValue.bool true⟩,
          ⟨JValue.str "en", JValue.str "English", JValue.str "english",
            JValue.str "gb", JValue.bool true⟩] := by
  rfl

/-- C9 (amended): catalog loading fails when the metadata file is missing or
its JSON is malformed, and when a row lacks any of the four required keys,
reported at the first missing key in access order; a list of rows carrying
the required keys loads successfully to exactly the rows of their own
values, in row order, with hasEdition defaulting to false when the key is
absent; no duplicate-iso check happens anywhere. -/
theorem C9_load_contract (rows : List JItem)
    (hkeys : ∀ item ∈ rows, ∀ k ∈ (["iso", "language", "displayName", "flag"] : List String),
      (jget item k).isSome) :
    load_catalog (CatalogSource.parsed rows) = .ok (rows.map loadedRow) ∧
    load_catalog CatalogSource.missing = .error "FileNotFoundError: assets/languages.json" ∧
    load_catalog CatalogSource.malformedJson = .error "JSONDecodeError" ∧
    (∀ item : JItem, jget item "iso" = none → load_lang item = .error "KeyError: iso") ∧
    (∀ item : JItem, ∀ v : JValue, jget item "iso" = some v →
      jget item "language" = none → load_lang item = .error "KeyError: language") ∧
    (∀ item : JItem, ∀ v1 v2 : JValue, jget item "iso" = some v1 →
      jget item "language" = some v2 → jget item "displayName" = none →
      load_lang item = .error "KeyError: displayName") ∧
    (∀ item : JItem, ∀ v1 v2 v3 : JValue, jget item "iso" = some v1 →
      jget item "language" = some v2 → jget item "displayName" = some v3 →
      jget item "flag" = none → load_lang item = .error "KeyError: flag") ∧
    (∀ item : JItem, ∀ rl : RawLang, load_lang item = .ok rl →
      rl.has_edition = (jget item "hasEdition").getD (JValue.bool false)) := by
  refine ⟨load_langs_eq rows hkeys, rfl, rfl, load_lang_err_iso, load_lang_err_language,
    load_lang_err_displayName, load_lang_err_flag, ?_⟩
  intro item rl hok
  cases h1 : jget item "iso" with
  | none =>
    rw [load_lang_err_iso item h1] at hok
    exact Except.noConfusion hok
  | some v1 =>
    cases h2 : jget item "language" with
    | none =>
      rw [load_lang_err_language item v1 h1 h2] at hok
      exact Except.noConfusion hok
    | some v2 =>
      cases h3 : jget item "displayName" with
      | none =>
        rw [load_lang_err_displayName item v1 v2 h1 h2 h3] at hok
        exact Except.noConfusion hok
      | some v3 =>
        cases h4 : jget item "flag" with
        | none =>
          rw [load_lang_err_flag item v1 v2 v3 h1 h2 h3 h4] at hok
          exact Except.noConfusion hok
        | some v4 =>
          have heq : load_lang item =
              .ok ⟨v1, v2, v3, v4, (jget item "hasEdition").getD (JValue.bool false)⟩ := by
            simp only [load_lang, h1, h2, h3, h4]
            rfl
          rw [heq] at hok
          injection hok with h
          rw [← h]

/-- C9 witness: two distinct rows with the same duplicate iso load to their
own values in row order, the second row exercising the hasEdition default. -/
theorem C9_load_contract_witness :
    load_catalog (CatalogSource.parsed
        [([("iso", JValue.str "en"), ("language", JValue.str "English"),
            ("displayName", JValue.str "english"), ("flag", JValue.str "gb"),
            ("hasEdition", JValue.bool true)] : JItem),
          ([("iso", JValue.str "en"), ("language", JValue.str "Englisch"),
            ("displayName", JValue.str "english2"), ("flag", JValue.str "us")] : JItem)]) =
      .ok [⟨JValue.str "en", JValue.str "English", JValue.str "english",
            JValue.str "gb", JValue.bool true⟩,
          ⟨JValue.str "en", JValue.str "Englisch", JValue.str "english2",
            JValue.str "us", JValue.bool false⟩] ∧
    load_catalog CatalogSource.missing = .error "FileNotFoundError: assets/languages.json" ∧
    load_catalog CatalogSource.malformedJson = .error "JSONDecodeError" ∧
    (∀ item : JItem, jget item "iso" = none → load_lang item = .error "KeyError: iso") ∧
    (∀ item : JItem, ∀ v : JValue, jget item "iso" = some v →
      jget item "language" = none → load_lang item = .error "KeyError: language") ∧
    (∀ item : JItem, ∀ v1 v2 : JValue, jget item "iso" = some v1 →
      jget item "language" = some v2 → jget item "displayName" = none →
      load_lang item = .error "KeyError: displayName") ∧
    (∀ item : JItem, ∀ v1 v2 v3 : JValue, jget item "iso" = some v1 →
      jget item "language" = some v2 → jget item "displayName" = some v3 →
      jget item "flag" = none → load_lang item = .error "KeyError: flag") ∧
    (∀ item : JItem, ∀ rl : RawLang, load_lang item = .ok rl →
      rl.has_edition = (jget item "hasEdition").getD (JValue.bool false)) := by
  have h := C9_load_contract
    [([("iso", JValue.str "en"), ("language", JValue.str "English"),
        ("displayName", JValue.str "english"), ("flag", JValue.str "gb"),
        ("hasEdition", JValue.bool true)] : JItem),
      ([("iso", JValue.str "en"), ("language", JValue.str "Englisch"),
        ("displayName", JValue.str "english2"), ("flag", JValue.str "us")] : JItem)]
    (by decide)
  exact ⟨by rw [h.1]; rfl, h.2.1, h.2.2.1, h.2.2.2.1, h.2.2.2.2.1, h.2.2.2.2.2.1,
    h.2.2.2.2.2.2.1, h.2.2.2.2.2.2.2⟩

/-- C10: the dictionary-type filter of the build command accepts only main,
ipa and ipa-merged; glossary is rejected as a filter value, and any accepted
value selects a matrix containing no glossary row, so a partial re-run
restricted to glossary alone can never happen. -/
theorem C10_dtype_filter_excludes_glossary :
    parseDictionaryType "glossary" = none ∧
    (∀ s d, parseDictionaryType s = some d → d ∈ dictionaryTypeChoices) ∧
    (∀ s d langs, parseDictionaryType s = some d →
      ∀ row ∈ selectMatrix (matrixFor langs) (some d), row.dictTy ≠ DictTy.glossary) := by
  refine ⟨rfl, ?_, ?_⟩
  · intro s d h
    unfold parseDictionaryType at h
    split at h
    · cases h; assumption
    · cases h
  · intro s d langs h row hrow hglos
    have hd : d ∈ dictionaryTypeChoices := by
      unfold parseDictionaryType at h
      split at h
      · cases h; assumption
      · cases h
    have hname : row.dictTy.name = d := by
      simp only [selectMatrix] at hrow
      exact of_decide_eq_true (List.mem_filter.mp hrow).2
    rw [hglos] at hname
    rw [← hname] at hd
    simp [DictTy.name, dictionaryTypeChoices] at hd

/-- C10 witness: glossary is rejected while the accepted value main selects
only non-glossary rows of a concrete matrix. -/
theorem C10_dtype_filter_excludes_glossary_witness :
    parseDictionaryType "glossary" = none ∧
    ((selectMatrix (matrixFor [⟨"en", "English", "English", "e", true⟩]) (some "main")).all
      (fun row => row.dictTy != DictTy.glossary)) = true := by
  refine ⟨C10_dtype_filter_excludes_glossary.1, ?_⟩
  apply List.all_eq_true.mpr
  intro row hrow
  have h := C10_dtype_filter_excludes_glossary.2.2 "main" "main"
    [⟨"en", "English", "English", "e", true⟩] rfl row hrow
  simpa using h

/-- Helper: when the download pre-pass records no failure its trace is one
download invocation with (source, source) parameters per pending source, in
order. -/
theorem runDownloadList_complete (odir : String) (args : Args) (ora : Oracle) :
    ∀ sources : List String,
      (runDownloadList odir args ora sources).2 = none →
      (runDownloadList odir args ora sources).1 =
        sources.map (fun s => Invocation.mk "download" [s, s]) := by
  intro sources
  induction sources with
  | nil => intro _; rfl
  | cons s rest ih =>
    intro h
    simp only [runDownloadList] at h ⊢
    cases hrc : runCmd odir "download" [s, s] args true (ora "download" [s, s]) with
    | error f =>
      simp only [hrc] at h
      exact Option.noConfusion h
    | ok v =>
      simp only [hrc] at h ⊢
      simp only [List.map_cons, List.cons.injEq, true_and]
      exact ih h

/-- Helper: a constructed worker invocation is named after its dictionary
type. -/
theorem workerInvocation_name {dictTy : DictTy} {s t : String} {inv : Invocation}
    (h : workerInvocation dictTy s t = some inv) : inv.cmdName = dictTy.name := by
  cases dictTy <;> simp only [workerInvocation] at h
  · cases h; rfl
  · cases h; rfl
  · cases h; rfl
  · split at h
    · cases h
    · cases h; rfl

/-- Helper: every invocation dispatched by a group carries the name of the
dictionary type of the group. -/
theorem runGroup_names (odir : String) (dictTy : DictTy) (source : String) (args : Args)
    (ora : Oracle) :
    ∀ targets : List String, ∀ inv ∈ (runGroup odir dictTy source args ora targets).1,
      inv.cmdName = dictTy.name := by
  intro targets
  induction targets with
  | nil => intro inv h; simp [runGroup] at h
  | cons t rest ih =>
    intro inv hmem
    simp only [runGroup] at hmem
    cases hwi : workerInvocation dictTy source t with
    | none =>
      simp only [hwi] at hmem
      exact ih inv hmem
    | some inv2 =>
      simp only [hwi] at hmem
      cases hrc : runCmd odir inv2.cmdName inv2.params args false
          (ora inv2.cmdName inv2.params) with
      | error f =>
        simp only [hrc] at hmem
        rw [List.mem_singleton.mp hmem]
        exact workerInvocation_name hwi
      | ok v =>
        simp only [hrc] at hmem
        rcases List.mem_cons.mp hmem with h | h
        · rw [h]; exact workerInvocation_name hwi
        · exact ih inv h

/-- Helper: every invocation dispatched while running one matrix row carries
the name of the row's dictionary type. -/
theorem runSources_names (odir : String) (dictTy : DictTy) (args : Args) (ora : Oracle)
    (targetsFor : String → List String) :
    ∀ sources : List String, ∀ inv ∈ (runSources odir dictTy args ora targetsFor sources).1,
      inv.cmdName = dictTy.name := by
  intro sources
  induction sources with
  | nil => intro inv h; simp [runSources] at h
  | cons s rest ih =>
    intro inv hmem
    simp only [runSources] at hmem
    cases hg : (runGroup odir dictTy s args ora (targetsFor s)).2 with
    | some f =>
      simp only [hg] at hmem
      exact runGroup_names odir dictTy s args ora (targetsFor s) inv hmem
    | none =>
      simp only [hg] at hmem
      rcases List.mem_append.mp hmem with h | h
      · exact runGroup_names odir dictTy s args ora (targetsFor s) inv h
      · exact ih inv h

/-- Helper: every invocation of the build phase is named after the dictionary
type of some dispatched row. -/
theorem runRows_names (odir : String) (args : Args) (ora : Oracle) :
    ∀ rows : List MatrixRow, ∀ inv ∈ (runRows odir args ora rows).1,
      ∃ row ∈ rows, inv.cmdName = row.dictTy.name := by
  intro rows
  induction rows with
  | nil => intro inv h; simp [runRows] at h
  | cons row rest ih =>
    intro inv hmem
    simp only [runRows] at hmem
    cases hg : (runSources odir row.dictTy args ora row.targetsFor row.sources).2 with
    | some f =>
      simp only [hg] at hmem
      exact ⟨row, List.mem_cons_self _ _,
        runSources_names odir row.dictTy args ora row.targetsFor row.sources inv hmem⟩
    | none =>
      simp only [hg] at hmem
      rcases List.mem_append.mp hmem with h | h
      · exact ⟨row, List.mem_cons_self _ _,
          runSources_names odir row.dictTy args ora row.targetsFor row.sources inv h⟩
      · obtain ⟨r, hr, hn⟩ := ih inv h
        exact ⟨r, List.mem_cons_of_mem _ hr, hn⟩

/-- Helper: the dtype filter selects a subset of the matrix rows. -/
theorem selectMatrix_subset {rows : List MatrixRow} {o : Option String} {row : MatrixRow}
    (h : row ∈ selectMatrix rows o) : row ∈ rows := by
  cases o with
  | none => exact h
  | some d => exact (List.mem_filter.mp h).1

/-- Helper: no matrix row is named download. -/
theorem matrixFor_name_not_download {langs : List Lang} {row : MatrixRow}
    (h : row ∈ matrixFor langs) : row.dictTy.name ≠ "download" := by
  simp only [matrixFor, List.mem_cons, List.not_mem_nil, or_false] at h
  rcases h with h | h | h | h <;> (rw [h]; simp [DictTy.name])

/-- C4: when the download pre-pass completes without failure, the run trace
is exactly one download invocation with (source, source) parameters per
edition source, sequentially in catalog order, followed by build invocations
none of which is a download; each edition source is downloaded exactly once
in the whole run. -/
theorem C4_download_pre_pass (odir : String) (langs : List Lang) (args : Args) (ora : Oracle)
    (hnodup : (withEditionOf langs).Nodup)
    (hok : (runDownloadList odir args ora (withEditionOf langs)).2 = none) :
    ∃ btr : List Invocation,
      (runMatrixTrace odir langs args ora).1 =
        (withEditionOf langs).map (fun s => Invocation.mk "download" [s, s]) ++ btr ∧
      (∀ inv ∈ btr, inv.cmdName ≠ "download") ∧
      ∀ s ∈ withEditionOf langs,
        ((runMatrixTrace odir langs args ora).1.filter
          (fun inv => inv.cmdName = "download")).count (Invocation.mk "download" [s, s]) = 1 := by
  have hfst := runDownloadList_complete odir args ora (withEditionOf langs) hok
  have htrace : (runMatrixTrace odir langs args ora).1 =
      (withEditionOf langs).map (fun s => Invocation.mk "download" [s, s]) ++
        (runRows odir args ora (selectMatrix (matrixFor langs) args.dtype)).1 := by
    simp only [runMatrixTrace, hok]
    rw [hfst]
  have hbuild : ∀ inv ∈ (runRows odir args ora (selectMatrix (matrixFor langs) args.dtype)).1,
      inv.cmdName ≠ "download" := by
    intro inv hinv
    obtain ⟨row, hrow, hname⟩ := runRows_names odir args ora _ inv hinv
    rw [hname]
    exact matrixFor_name_not_download (selectMatrix_subset hrow)
  refine ⟨_, htrace, hbuild, ?_⟩
  intro s hs
  rw [htrace, List.filter_append]
  have h1 : ((withEditionOf langs).map (fun s => Invocation.mk "download" [s, s])).filter
      (fun inv => inv.cmdName = "download") =
      (withEditionOf langs).map (fun s => Invocation.mk "download" [s, s]) := by
    apply List.filter_eq_self.mpr
    intro a ha
    obtain ⟨x, hx, hax⟩ := List.mem_map.mp ha
    rw [← hax]
    simp
  have h2 : ((runRows odir args ora (selectMatrix (matrixFor langs) args.dtype)).1).filter
      (fun inv => inv.cmdName = "download") = [] := by
    apply List.filter_eq_nil_iff.mpr
    intro a ha
    simpa using hbuild a ha
  rw [h1, h2, List.append_nil]
  have hinj : Function.Injective (fun s => Invocation.mk "download" [s, s]) := by
    intro a b hab
    have hp := congrArg Invocation.params hab
    simp only [List.cons.injEq, and_true] at hp
    exact hp.1
  rw [List.count_map_of_injective _ _ hinj s]
  exact List.count_eq_one_of_mem hnodup hs

/-- C4 witness: a concrete catalog with one edition language and an oracle
where every invocation succeeds. -/
theorem C4_download_pre_pass_witness :
    ∃ btr : List Invocation,
      (runMatrixTrace "data/release"
          [⟨"en", "English", "English", "e", true⟩, ⟨"ja", "Japanese", "Japanese", "j", false⟩]
          ⟨0, false, 8, none⟩ (fun _ _ => ⟨0, [], ""⟩)).1 =
        (withEditionOf [⟨"en", "English", "English", "e", true⟩,
          ⟨"ja", "Japanese", "Japanese", "j", false⟩]).map
            (fun s => Invocation.mk "download" [s, s]) ++ btr ∧
      (∀ inv ∈ btr, inv.cmdName ≠ "download") ∧
      ∀ s ∈ withEditionOf [⟨"en", "English", "English", "e", true⟩,
          ⟨"ja", "Japanese", "Japanese", "j", false⟩],
        ((runMatrixTrace "data/release"
            [⟨"en", "English", "English", "e", true⟩, ⟨"ja", "Japanese", "Japanese", "j", false⟩]
            ⟨0, false, 8, none⟩ (fun _ _ => ⟨0, [], ""⟩)).1.filter
          (fun inv => inv.cmdName = "download")).count (Invocation.mk "download" [s, s]) = 1 :=
  C4_download_pre_pass "data/release"
    [⟨"en", "English", "English", "e", true⟩, ⟨"ja", "Japanese", "Japanese", "j", false⟩]
    ⟨0, false, 8, none⟩ (fun _ _ => ⟨0, [], ""⟩) (by decide) (by rfl)

/-- C1 witness for the amended policy: exit code 2 on a glossary job
satisfies the abort characterization at a concrete input. -/
theorem C1_exit_code_policy_witness :
    runCmd "data/release" "glossary" ["el", "ja"] ⟨0, false, 8, none⟩ false ⟨2, [], ""⟩ =
        .error ⟨buildCmd "data/release" "glossary" ["el", "ja"], ⟨2, [], ""⟩⟩ ↔
      ((false : Bool) = false ∧ (2 : Int) ≠ 0 ∧
        ¬((("glossary" : String) = "ipa" ∨ ("glossary" : String) = "main") ∧
          (["el", "ja"] : List String)[1]? = some "en")) :=
  C1_exit_code_policy "data/release" "glossary" ["el", "ja"] ⟨0, false, 8, none⟩ false
    ⟨2, [], ""⟩

/-- C5 witness at a concrete glossary group. -/
theorem C5_glossary_self_pair_skipped_witness :
    workerInvocation .glossary "el" "el" = none ∧
    worker "data/release" .glossary "el" ⟨0, false, 8, none⟩ (fun _ _ => ⟨0, [], ""⟩) "el" =
      .ok (0, []) ∧
    (⟨"glossary", ["el", "el"]⟩ : Invocation) ∉
      (runGroup "data/release" .glossary "el" ⟨0, false, 8, none⟩ (fun _ _ => ⟨0, [], ""⟩)
        ["el", "ja"]).1 := by
  have h := C5_glossary_self_pair_skipped "data/release" ⟨0, false, 8, none⟩
    (fun _ _ => ⟨0, [], ""⟩) "el"
  exact ⟨h.1, h.2.1, h.2.2 ["el", "ja"]⟩
